import Mathlib

/-!
Shallow embedding of the drone reinforcement-learning trainer
(`drone_rl.py`): the DQN agent (`DQNAgent`), the telemetry codec
(`extract_state_features`, `calculate_reward`, `is_episode_done`), the
connection-resilience logic (`reconnect`) and the orchestrator's training
trigger.  Python floats are modelled as exact rationals (agent side) or
reals (codec side, where `np.sqrt` appears); neural networks are abstract
weight values with abstract `predict`/`fit` operations, since the claims
never depend on the numeric content of the networks.
-/

namespace DroneRL

/-! ## DQN agent (`drone_rl.py`, class `DQNAgent`)

Hyperparameters fixed in `DQNAgent.__init__`. -/

def actionSize : ℕ := 4

def gamma : ℚ := 95 / 100

def epsilonMin : ℚ := 1 / 100

def epsilonDecay : ℚ := 995 / 1000

def updateFreq : ℕ := 10

def memoryCapacity : ℕ := 10000

/-- One experience tuple `(state, action, reward, next_state, done)` as stored
by `DQNAgent.memorize`. -/
structure Transition where
  state : List ℚ
  action : List ℚ
  reward : ℚ
  nextState : List ℚ
  done : Bool

/-- Abstract interface of a Keras model: `predict` maps a feature vector to an
output vector, `fit` performs one optimization pass on a batch of
(input, target) pairs and returns the updated weights (`epochs=1` in the
source, so one `fit` application is one pass). -/
structure NetOps (W : Type) where
  predict : W → List ℚ → List ℚ
  fit : W → List (List ℚ) → List (List ℚ) → W

/-- Mutable state of a `DQNAgent`: replay memory, exploration rate, the
step counter used for target-network syncing, and the two networks. -/
structure AgentState (W : Type) where
  memory : List Transition
  epsilon : ℚ
  stepCounter : ℕ
  model : W
  targetModel : W

/-- Agent as constructed by `DQNAgent.__init__`: empty memory, `epsilon = 1.0`,
`step_counter = 0`, and `update_target_model()` makes the target network a copy
of the online network. -/
def initAgent {W : Type} (w : W) : AgentState W :=
  { memory := [], epsilon := 1, stepCounter := 0, model := w, targetModel := w }

/-- `np.max` over an output vector (nonempty in the source: `action_size = 4`). -/
def listMax (l : List ℚ) : ℚ := l.foldl max (l.headD 0)

/-- Append to a `collections.deque` with `maxlen = cap`: once full, the oldest
(leftmost) entries are evicted. -/
def dequeAppend (cap : ℕ) (xs : List α) (x : α) : List α :=
  let ys := xs ++ [x]
  if cap < ys.length then ys.drop (ys.length - cap) else ys

/-- `DQNAgent.memorize`: `self.memory.append((state, action, reward, next_state,
done))` on the capacity-10000 deque. -/
def memorize {W : Type} (a : AgentState W) (t : Transition) : AgentState W :=
  { a with memory := dequeAppend memoryCapacity a.memory t }

/-- `DQNAgent.act`: epsilon-greedy selection.  The draw `np.random.rand()` is
the parameter `r`, the random uniform action is the parameter `randomAction`.
`act` mutates no agent state, which the returned pair makes explicit. -/
def act {W : Type} (ops : NetOps W) (a : AgentState W) (r : ℚ)
    (randomAction : List ℚ) (state : List ℚ) : List ℚ × AgentState W :=
  if r ≤ a.epsilon then (randomAction, a)
  else (ops.predict a.model state, a)

/-- Inner loop of `DQNAgent.replay`: for each output dimension `i`,
`similarity = 1 - abs(action[i] - target_f[0][i])` and
`target_f[0][i] = target_f[0][i] + similarity * (target - target_f[0][i])`.
Each index is read and written exactly once, so the sequential mutation is a
pointwise map over the original prediction. -/
def blendTargets (pred action : List ℚ) (target : ℚ) : List ℚ :=
  (List.range actionSize).map fun i =>
    let p := pred.getD i 0
    let similarity := 1 - |action.getD i 0 - p|
    p + similarity * (target - p)

/-- `DQNAgent.replay`: early-return when the memory holds fewer than
`batch_size` transitions; otherwise build the `(states, targets)` batch from
the sampled minibatch (the sample itself is the nondeterministic parameter
`batch`), fit the online model once, decay epsilon above its floor, increment
the step counter, and hard-sync the target network every `update_freq`-th
update. -/
def replay {W : Type} (ops : NetOps W) (batch : List Transition)
    (batchSize : ℕ) (a : AgentState W) : AgentState W :=
  if a.memory.length < batchSize then a
  else
    let acc := batch.foldl
      (fun (st : List (List ℚ) × List (List ℚ)) t =>
        let target :=
          if t.done then t.reward
          else t.reward + gamma * listMax (ops.predict a.targetModel t.nextState)
        let targetF := ops.predict a.model t.state
        (st.1 ++ [t.state], st.2 ++ [blendTargets targetF t.action target]))
      ([], [])
    let model := ops.fit a.model acc.1 acc.2
    let epsilon := if epsilonMin < a.epsilon then a.epsilon * epsilonDecay else a.epsilon
    let stepCounter := a.stepCounter + 1
    let targetModel := if stepCounter % updateFreq = 0 then model else a.targetModel
    { a with model := model, targetModel := targetModel,
             epsilon := epsilon, stepCounter := stepCounter }

/-! Spec-side definitions for the update rule, written from the spec's words
("the regression target for a done transition is the observed reward; for a
non-terminal transition it is reward + γ × max(targetNetwork(nextState))",
"per-dimension regression target predicted[i] + similarity × (target −
predicted[i])"), to be compared with the code-side `replay`. -/

/-- Scalar regression target of a transition, per the spec. -/
def specScalarTarget {W : Type} (ops : NetOps W) (a : AgentState W)
    (t : Transition) : ℚ :=
  if t.done then t.reward
  else t.reward + gamma * listMax (ops.predict a.targetModel t.nextState)

/-- Per-dimension blended target vector of a transition, per the spec. -/
def specBlendedTarget {W : Type} (ops : NetOps W) (a : AgentState W)
    (t : Transition) : List ℚ :=
  (List.range actionSize).map fun i =>
    let p := (ops.predict a.model t.state).getD i 0
    p + (1 - |t.action.getD i 0 - p|) * (specScalarTarget ops a t - p)

/-! ## Telemetry codec (`drone_rl.py`, class `DroneRLInterface`)

Constants fixed in `DroneRLInterface.__init__`.  `np.sqrt` forces the codec
side to live over the reals. -/

/-- One of the nested `{x,y,z}` mappings of a raw telemetry message. -/
structure Vec3 where
  x : ℝ
  y : ℝ
  z : ℝ

/-- `{}` / all-fields-missing sub-object: every `get(k, 0)` returns 0. -/
def Vec3.zero : Vec3 := ⟨0, 0, 0⟩

/-- A raw state message.  A `none` sub-object models a missing or `None`
`position` / `rotation` / `velocity` entry, whose every component then
defaults to 0. -/
structure RawTelemetry where
  position : Option Vec3
  rotation : Option Vec3
  velocity : Option Vec3

/-- `self.target_position = {x: 30.0, y: 0.0, z: 30.0}`. -/
def targetPosition : Vec3 := ⟨30, 0, 30⟩

/-- `self.min_altitude = 0.5`. -/
noncomputable def minAltitude : ℝ := 1 / 2

/-- `self.target_radius = 2.5`. -/
noncomputable def targetRadius : ℝ := 5 / 2

/-- `self.start_steps_grace_period = 20`. -/
def graceSteps : ℕ := 20

/-- `max_tilt = 75` in `is_episode_done`. -/
def maxTilt : ℝ := 75

/-- `self.state_size = 15`. -/
def stateSize : ℕ := 15

/-- 3D Euclidean distance from a telemetry position to the landing target,
`np.sqrt(dx*dx + dy*dy + dz*dz)`. -/
noncomputable def distToTarget (st : RawTelemetry) : ℝ :=
  let pos := st.position.getD Vec3.zero
  let dx := pos.x - targetPosition.x
  let dy := pos.y - targetPosition.y
  let dz := pos.z - targetPosition.z
  Real.sqrt (dx * dx + dy * dy + dz * dz)

/-- Horizontal (xz-plane) distance from a telemetry position to the target,
`np.sqrt(dx*dx + dz*dz)`. -/
noncomputable def horizDistToTarget (st : RawTelemetry) : ℝ :=
  let pos := st.position.getD Vec3.zero
  let dx := pos.x - targetPosition.x
  let dz := pos.z - targetPosition.z
  Real.sqrt (dx * dx + dz * dz)

/-- `DroneRLInterface.extract_state_features`: `none` input models falsy
`state_data` (the all-zero vector is returned); otherwise the 15 feature
components in source order.  Rotations are divided by 180 and clamped to
[-1, 1]; position, velocity and direction components are divided by their
constants with no clamp; `distance_norm = min(1.0, distance / 100.0)`. -/
noncomputable def extract_state_features (sd : Option RawTelemetry) : List ℝ :=
  match sd with
  | none => List.replicate stateSize 0
  | some st =>
    let pos := st.position.getD Vec3.zero
    let rot := st.rotation.getD Vec3.zero
    let vel := st.velocity.getD Vec3.zero
    let pitch_norm := max (-1) (min 1 (rot.x / 180))
    let yaw_norm := max (-1) (min 1 (rot.y / 180))
    let roll_norm := max (-1) (min 1 (rot.z / 180))
    let dx := pos.x - targetPosition.x
    let dy := pos.y - targetPosition.y
    let dz := pos.z - targetPosition.z
    let distance := Real.sqrt (dx * dx + dy * dy + dz * dz)
    let distance_norm := min 1 (distance / 100)
    [pos.x / 50, pos.y / 50, pos.z / 50,
     pitch_norm, yaw_norm, roll_norm,
     vel.x / 10, vel.y / 10, vel.z / 10,
     dx / 100, dy / 100, dz / 100,
     distance_norm, distance_norm * (1 / 2),
     if pos.y < minAltitude then 1 else 0]

/-- `DroneRLInterface.calculate_reward`: the remembered
`self.prev_distance_to_target` is threaded explicitly as `prevDist`
(`none` models Python `None`).  Returns the reward together with the updated
remembered distance.  A falsy `state_data` returns 0.0 without touching the
remembered distance. -/
noncomputable def calculate_reward (sd : Option RawTelemetry)
    (prevDist : Option ℝ) : ℝ × Option ℝ :=
  match sd with
  | none => (0, prevDist)
  | some st =>
    let pos := st.position.getD Vec3.zero
    let dx := pos.x - targetPosition.x
    let dy := pos.y - targetPosition.y
    let dz := pos.z - targetPosition.z
    let distance := Real.sqrt (dx * dx + dy * dy + dz * dz)
    let horizontal_distance := Real.sqrt (dx * dx + dz * dz)
    let time_penalty : ℝ := -(1 / 10)
    let distance_reward := 5 / (distance + 1)
    let progress_reward : ℝ :=
      match prevDist with
      | some p => (p - distance) * 10
      | none => 0
    let landing_reward : ℝ :=
      if pos.y < minAltitude then
        if horizontal_distance < targetRadius then 200 else -200
      else 0
    let total_reward := time_penalty + distance_reward + progress_reward + landing_reward
    (max (-1000) (min 1000 total_reward), some distance)

/-- `self.training_state` values. -/
inductive TrainingState where
  | idle
  | resetting
  | episodeRunning
deriving DecidableEq

/-- The distinct termination reasons set by `is_episode_done` (the source
stores them as log strings in `self.episode_done_reason`). -/
inductive DoneReason where
  | noStateData
  | extremeTilt
  | landedOnTarget
  | landedOutsideTarget
  | maxStepsReached
deriving DecidableEq

/-- The episode-scoped fields of `DroneRLInterface` read by `is_episode_done`. -/
structure EpisodeCtx where
  trainingState : TrainingState
  episodeSteps : ℕ
  maxEpisodeSteps : ℕ

/-- `DroneRLInterface.is_episode_done`, returning the boolean verdict together
with the reason it stores in `self.episode_done_reason` (`none` on every
non-terminal return path, where the source leaves the field reset). -/
noncomputable def is_episode_done (ctx : EpisodeCtx) (sd : Option RawTelemetry) :
    Bool × Option DoneReason :=
  if ctx.trainingState ≠ TrainingState.episodeRunning then (false, none)
  else
    match sd with
    | none => (true, some DoneReason.noStateData)
    | some st =>
      if ctx.episodeSteps < graceSteps then (false, none)
      else
        let pos := st.position.getD Vec3.zero
        let rot := st.rotation.getD Vec3.zero
        let pitch := rot.x
        let roll := rot.z
        let dx := pos.x - targetPosition.x
        let dz := pos.z - targetPosition.z
        let distance_to_target_xz := Real.sqrt (dx ^ 2 + dz ^ 2)
        if maxTilt < |pitch| ∨ maxTilt < |roll| then
          (true, some DoneReason.extremeTilt)
        else if pos.y < minAltitude ∧ graceSteps < ctx.episodeSteps then
          if distance_to_target_xz < targetRadius then
            (true, some DoneReason.landedOnTarget)
          else (true, some DoneReason.landedOutsideTarget)
        else if ctx.maxEpisodeSteps ≤ ctx.episodeSteps then
          (true, some DoneReason.maxStepsReached)
        else (false, none)

/-! ## Connection resilience (`DroneRLInterface.reconnect`) -/

/-- `self.max_reconnect_attempts = 5`. -/
def maxReconnectAttempts : ℕ := 5

/-- The connection fields of `DroneRLInterface` touched by `reconnect`. -/
structure ConnState where
  connected : Bool
  reconnectAttempts : ℕ
deriving DecidableEq

/-- `DroneRLInterface.reconnect`: gives up (returns `False`, no raise) once
the attempt counter has reached the maximum; otherwise increments the counter,
then on a successful `websockets.connect` (the oracle `succeeds`) marks
connected and resets the counter to 0, and on failure/timeout returns `False`
with the incremented counter. -/
def reconnect (succeeds : Bool) (s : ConnState) : Bool × ConnState :=
  if maxReconnectAttempts ≤ s.reconnectAttempts then (false, s)
  else
    let s1 : ConnState := { s with reconnectAttempts := s.reconnectAttempts + 1 }
    if succeeds then
      (true, { s1 with connected := true, reconnectAttempts := 0 })
    else (false, s1)

/-- A run of consecutive `reconnect` calls against an oracle of per-attempt
connection outcomes, collecting the returned booleans. -/
def reconnectRun (oracle : List Bool) (s : ConnState) : List Bool × ConnState :=
  oracle.foldl
    (fun (acc : List Bool × ConnState) b =>
      let r := reconnect b acc.2
      (acc.1 ++ [r.1], r.2))
    ([], s)

/-! ## Orchestrator training trigger (`DroneRLInterface.train`) -/

/-- `self.batch_size = 32`. -/
def batch_size : ℕ := 32

/-- The per-step training guard of the episode loop:
`if len(self.agent.memory) > self.batch_size: self.agent.replay(...)`. -/
def trainTriggersUpdate (memLen : ℕ) : Bool := batch_size < memLen

/-! ## Concrete inputs used by witnesses -/

/-- A simple concrete transition. -/
def mkTrans (i : ℕ) : Transition := ⟨[], [], (i : ℚ), [], false⟩

/-- Trivial network operations over a unit weight type. -/
def unitOps : NetOps Unit := ⟨fun _ _ => [], fun _ _ _ => ()⟩

/-- Network operations whose `fit` records the batch it was given, so witness
equalities about `replay`'s fit call are contentful. -/
def recOps : NetOps (List (List ℚ) × List (List ℚ)) :=
  ⟨fun _ _ => [1 / 2, -(1 / 2), 0, 1], fun _ ss ts => (ss, ts)⟩

/-- A transition with nonempty state/action vectors. -/
def wTrans : Transition := ⟨[1], [1, 0, 0, 1], 2, [3], false⟩

/-- An agent whose memory holds exactly `batch_size` transitions. -/
def wAgent : AgentState (List (List ℚ) × List (List ℚ)) :=
  { initAgent ([], []) with memory := List.replicate 32 wTrans }

/-- An agent whose memory holds `batch_size + 1` transitions. -/
def agent33 : AgentState Unit :=
  { initAgent () with memory := List.replicate 33 (mkTrans 0) }

/-- `wAgent` nine training updates in, so the next update is the tenth. -/
def syncAgent : AgentState (List (List ℚ) × List (List ℚ)) :=
  { wAgent with stepCounter := 9 }

/-- Epsilon evolution of `replay` in isolation:
`if self.epsilon > self.epsilon_min: self.epsilon *= self.epsilon_decay`. -/
def epsUpdate (e : ℚ) : ℚ := if epsilonMin < e then e * epsilonDecay else e

/-- The exploration rate after `n` consecutive training updates of a fresh
agent whose memory is kept above the batch size. -/
def epsTrace (n : ℕ) : ℚ :=
  ((fun a => replay unitOps [] batch_size a)^[n] agent33).epsilon

/-! ## Helper lemmas shared across the claims -/

lemma foldl_append_pair {α β γ : Type} (f : α → β) (g : α → γ) :
    ∀ (l : List α) (acc1 : List β) (acc2 : List γ),
      l.foldl (fun st t => (st.1 ++ [f t], st.2 ++ [g t])) (acc1, acc2)
        = (acc1 ++ l.map f, acc2 ++ l.map g) := by
  intro l
  induction l with
  | nil => intro acc1 acc2; simp
  | cons x l ih =>
    intro acc1 acc2
    rw [List.foldl_cons, ih]
    simp

lemma replay_skip {W : Type} (ops : NetOps W) (batch : List Transition)
    (batchSize : ℕ) (a : AgentState W) (h : a.memory.length < batchSize) :
    replay ops batch batchSize a = a := by
  unfold replay
  rw [if_pos h]

lemma replay_memory_eq {W : Type} (ops : NetOps W) (batch : List Transition)
    (batchSize : ℕ) (a : AgentState W) :
    (replay ops batch batchSize a).memory = a.memory := by
  unfold replay
  split <;> rfl

lemma replay_stepCounter_eq {W : Type} (ops : NetOps W) (batch : List Transition)
    (batchSize : ℕ) (a : AgentState W) (h : ¬ a.memory.length < batchSize) :
    (replay ops batch batchSize a).stepCounter = a.stepCounter + 1 := by
  unfold replay
  rw [if_neg h]

lemma replay_epsilon_eq {W : Type} (ops : NetOps W) (batch : List Transition)
    (batchSize : ℕ) (a : AgentState W) (h : ¬ a.memory.length < batchSize) :
    (replay ops batch batchSize a).epsilon = epsUpdate a.epsilon := by
  unfold replay epsUpdate
  rw [if_neg h]

lemma foldl_dequeAppend {α : Type} (cap : ℕ) (l : List α) :
    ∀ init : List α, init.length ≤ cap →
      l.foldl (dequeAppend cap) init
        = (init ++ l).drop (init.length + l.length - cap) := by
  induction l with
  | nil =>
    intro init h
    simp [Nat.sub_eq_zero_of_le h]
  | cons x l ih =>
    intro init h
    rw [List.foldl_cons]
    by_cases hc : init.length + 1 ≤ cap
    · have hd : dequeAppend cap init x = init ++ [x] := by
        unfold dequeAppend
        rw [if_neg (by simp; omega)]
      rw [hd, ih (init ++ [x]) (by simp; omega)]
      have hlist : init ++ [x] ++ l = init ++ x :: l := by simp
      have hcnt : (init ++ [x]).length + l.length - cap
          = init.length + (x :: l).length - cap := by
        simp only [List.length_append, List.length_singleton, List.length_cons,
          List.length_nil]
        omega
      rw [hlist, hcnt]
    · have hcap : init.length = cap := by omega
      have hd : dequeAppend cap init x = (init ++ [x]).drop 1 := by
        unfold dequeAppend
        rw [if_pos (by simp; omega)]
        congr 1
        simp [hcap]
      have hlen : ((init ++ [x]).drop 1).length = cap := by
        simp [hcap]
      rw [hd, ih _ (le_of_eq hlen), hlen]
      have hc1 : cap + l.length - cap = l.length := by omega
      have hc2 : init.length + (x :: l).length - cap = l.length + 1 := by
        simp only [List.length_cons, hcap]
        omega
      rw [hc1, hc2]
      have h1 : init ++ x :: l = (init ++ [x]) ++ l := by simp
      rw [h1]
      have h3 : ((init ++ [x]) ++ l).drop 1 = (init ++ [x]).drop 1 ++ l :=
        List.drop_append_of_le_length (by simp)
      rw [← h3, List.drop_drop]
      congr 1
      omega

lemma foldl_memorize_memory {W : Type} :
    ∀ (ts : List Transition) (a : AgentState W),
      (ts.foldl memorize a).memory = ts.foldl (dequeAppend memoryCapacity) a.memory := by
  intro ts
  induction ts with
  | nil => intro a; rfl
  | cons t ts ih =>
    intro a
    rw [List.foldl_cons, List.foldl_cons, ih]
    rfl

lemma epsTrace_iterate : ∀ n : ℕ, epsTrace n = epsUpdate^[n] 1 := by
  have hmem : ∀ n : ℕ,
      ((fun a => replay unitOps [] batch_size a)^[n] agent33).memory = agent33.memory := by
    intro n
    induction n with
    | zero => rfl
    | succ n ih =>
      rw [Function.iterate_succ_apply', replay_memory_eq, ih]
  have hguard : ¬ agent33.memory.length < batch_size := by
    simp [agent33, initAgent, batch_size]
  intro n
  induction n with
  | zero => rfl
  | succ n ih =>
    unfold epsTrace
    rw [Function.iterate_succ_apply', Function.iterate_succ_apply',
      replay_epsilon_eq _ _ _ _ (by rw [hmem n]; exact hguard)]
    unfold epsTrace at ih
    rw [ih]

lemma epsUpdate_iterate_pow : ∀ n : ℕ, n ≤ 918 → epsUpdate^[n] 1 = epsilonDecay ^ n := by
  intro n
  induction n with
  | zero => intro _; simp
  | succ n ih =>
    intro h
    rw [Function.iterate_succ_apply', ih (by omega)]
    have hlow : epsilonMin < epsilonDecay ^ n := by
      have h918 : epsilonDecay ^ 918 ≤ epsilonDecay ^ n :=
        pow_le_pow_of_le_one (by norm_num [epsilonDecay]) (by norm_num [epsilonDecay]) (by omega)
      have hbig : epsilonMin < epsilonDecay ^ 918 := by
        norm_num [epsilonMin, epsilonDecay]
      exact lt_of_lt_of_le hbig h918
    unfold epsUpdate
    rw [if_pos hlow, pow_succ]

/-! Spec-side reward terms, written from the spec's words ("constant time
penalty", "inverse-distance bounded reward k/(distance+1)", "progress reward
(prevDistance − distance) × scale, zero on the first call", "±200 landing
term", "total clamped to ±1000"), to be compared with the code-side
`calculate_reward`. -/

/-- Constant −0.1 per-step time penalty, per the spec. -/
noncomputable def timePenaltySpec : ℝ := -(1 / 10)

/-- Bounded inverse-distance term `5 / (distance + 1)`, per the spec. -/
noncomputable def distanceRewardSpec (st : RawTelemetry) : ℝ :=
  5 / (distToTarget st + 1)

/-- Progress term `10 × (prevDistance − distance)`, zero when no previous
distance is remembered, per the spec. -/
noncomputable def progressRewardSpec (st : RawTelemetry) : Option ℝ → ℝ
  | none => 0
  | some p => 10 * (p - distToTarget st)

/-- ±200 landing term: +200 below the minimum altitude inside the target
radius, −200 below the minimum altitude outside it, else 0, per the spec. -/
noncomputable def landingRewardSpec (st : RawTelemetry) : ℝ :=
  if (st.position.getD Vec3.zero).y < minAltitude then
    if horizDistToTarget st < targetRadius then 200 else -200
  else 0

/-- Clamp of the total reward to [−1000, 1000], per the spec. -/
noncomputable def clampReward (r : ℝ) : ℝ := max (-1000) (min 1000 r)

/-- Telemetry-accessor shorthands used in theorem statements. -/
def telemetryPitch (st : RawTelemetry) : ℝ := (st.rotation.getD Vec3.zero).x

def telemetryRoll (st : RawTelemetry) : ℝ := (st.rotation.getD Vec3.zero).z

def telemetryY (st : RawTelemetry) : ℝ := (st.position.getD Vec3.zero).y

/-! Concrete codec inputs used by counterexamples and witnesses. -/

/-- Adversarial telemetry with a position component of magnitude `10 ^ 6`. -/
noncomputable def cexTelemetry : RawTelemetry := ⟨some ⟨10 ^ 6, 0, 0⟩, none, none⟩

/-- A level drone landed 1 m from the target center. -/
noncomputable def landedOnTargetTelemetry : RawTelemetry := ⟨some ⟨31, 1 / 4, 30⟩, none, none⟩

/-- A running episode context past the grace period. -/
def runningCtx : EpisodeCtx := ⟨TrainingState.episodeRunning, 21, 1000⟩

/-- A running episode context still inside the grace period. -/
def graceCtx : EpisodeCtx := ⟨TrainingState.episodeRunning, 5, 1000⟩

/-- Telemetry with extreme tilt, on the ground, far from the target. -/
noncomputable def tiltedTelemetry : RawTelemetry := ⟨some ⟨0, 1 / 4, 0⟩, some ⟨90, 0, 90⟩, none⟩

/-! ## Claim theorems -/

/-- C1: in `DQNAgent.replay`, when the memory holds at least `batch_size`
transitions, the scalar regression target of a done transition is its reward
and of a non-terminal transition is `reward + γ × max(targetNetwork(nextState))`;
the per-dimension fitted target is `predicted[i] + similarity × (target −
predicted[i])` with `similarity = 1 − |takenAction[i] − predicted[i]|`; and the
online model is the result of exactly one `fit` application on the batch of
(feature, blendedTargetVector) pairs. -/
theorem replay_update_rule {W : Type} (ops : NetOps W) (batch : List Transition)
    (batchSize : ℕ) (a : AgentState W) (h : ¬ a.memory.length < batchSize) :
    (replay ops batch batchSize a).model
      = ops.fit a.model (batch.map Transition.state)
          (batch.map (specBlendedTarget ops a)) ∧
    (∀ t : Transition, t.done = true → specScalarTarget ops a t = t.reward) ∧
    (∀ t : Transition, t.done = false →
      specScalarTarget ops a t
        = t.reward + gamma * listMax (ops.predict a.targetModel t.nextState)) := by
  refine ⟨?_, ?_, ?_⟩
  · unfold replay
    rw [if_neg h]
    simp only
    rw [foldl_append_pair (fun t : Transition => t.state)
      (fun t : Transition => blendTargets (ops.predict a.model t.state) t.action
        (if t.done then t.reward
         else t.reward + gamma * listMax (ops.predict a.targetModel t.nextState)))]
    simp only [List.nil_append]
    rfl
  · intro t ht
    unfold specScalarTarget
    rw [if_pos ht]
  · intro t ht
    unfold specScalarTarget
    rw [if_neg (by simp [ht])]

/-- C1 witness: the fitted-batch equation of `replay_update_rule` at a concrete
agent, network and batch. -/
theorem replay_update_rule_witness :
    ¬ wAgent.memory.length < 32 ∧
    (replay recOps [wTrans] 32 wAgent).model
      = recOps.fit wAgent.model ([wTrans].map Transition.state)
          ([wTrans].map (specBlendedTarget recOps wAgent)) := by
  have h : ¬ wAgent.memory.length < 32 := by
    simp [wAgent, initAgent]
  exact ⟨h, (replay_update_rule recOps [wTrans] 32 wAgent h).1⟩

/-- C4 counterexample: starting from a fresh agent whose memory stays above the
batch size, after 919 training updates the exploration rate has dropped
strictly below its configured floor `epsilon_min = 0.01` (it equals
`0.995 ^ 919`), refuting "never drops below its configured floor". -/
theorem epsilon_drops_below_floor : epsTrace 919 < epsilonMin := by
  have h918 : epsUpdate^[918] 1 = epsilonDecay ^ 918 :=
    epsUpdate_iterate_pow 918 le_rfl
  have h919 : epsTrace 919 = epsilonDecay ^ 918 * epsilonDecay := by
    rw [epsTrace_iterate, Function.iterate_succ_apply', h918]
    unfold epsUpdate
    rw [if_pos (by norm_num [epsilonMin, epsilonDecay])]
  rw [h919, ← pow_succ]
  norm_num [epsilonMin, epsilonDecay]

/-- C4 amended: across `replay` calls the exploration rate is monotonically
non-increasing; it is multiplied by the decay factor on a training update while
strictly above the floor (and left unchanged otherwise); and it never drops
below `epsilon_min × epsilon_decay` (one decay step below the configured
floor). -/
theorem epsilon_decay_behavior {W : Type} (ops : NetOps W) (batch : List Transition)
    (batchSize : ℕ) (a : AgentState W) :
    (0 ≤ a.epsilon → (replay ops batch batchSize a).epsilon ≤ a.epsilon) ∧
    (epsilonMin * epsilonDecay ≤ a.epsilon →
      epsilonMin * epsilonDecay ≤ (replay ops batch batchSize a).epsilon) ∧
    (¬ a.memory.length < batchSize → epsilonMin < a.epsilon →
      (replay ops batch batchSize a).epsilon = a.epsilon * epsilonDecay) := by
  by_cases hm : a.memory.length < batchSize
  · rw [replay_skip ops batch batchSize a hm]
    exact ⟨fun _ => le_rfl, fun hf => hf, fun hn _ => absurd hm hn⟩
  · rw [replay_epsilon_eq ops batch batchSize a hm]
    unfold epsUpdate
    refine ⟨?_, ?_, ?_⟩
    · intro h0
      by_cases hg : epsilonMin < a.epsilon
      · rw [if_pos hg]
        exact mul_le_of_le_one_right h0 (by norm_num [epsilonDecay])
      · rw [if_neg hg]
    · intro hf
      by_cases hg : epsilonMin < a.epsilon
      · rw [if_pos hg]
        calc epsilonMin * epsilonDecay ≤ a.epsilon * epsilonDecay :=
              mul_le_mul_of_nonneg_right (le_of_lt hg) (by norm_num [epsilonDecay])
          _ = a.epsilon * epsilonDecay := rfl
      · rw [if_neg hg]
        exact hf
    · intro _ hg
      rw [if_pos hg]

/-- C4 amended witness: the decay equation at a concrete agent whose epsilon
(1.0) is above the floor. -/
theorem epsilon_decay_behavior_witness :
    (0 : ℚ) ≤ agent33.epsilon ∧
    (replay unitOps [] batch_size agent33).epsilon ≤ agent33.epsilon ∧
    ¬ agent33.memory.length < batch_size ∧
    epsilonMin < agent33.epsilon ∧
    (replay unitOps [] batch_size agent33).epsilon = agent33.epsilon * epsilonDecay := by
  have h0 : (0 : ℚ) ≤ agent33.epsilon := by norm_num [agent33, initAgent]
  have hm : ¬ agent33.memory.length < batch_size := by
    simp [agent33, initAgent, batch_size]
  have hg : epsilonMin < agent33.epsilon := by
    norm_num [agent33, initAgent, epsilonMin]
  refine ⟨h0, (epsilon_decay_behavior unitOps [] batch_size agent33).1 h0, hm, hg,
    (epsilon_decay_behavior unitOps [] batch_size agent33).2.2 hm hg⟩

/-- C5: on a training update of `replay` the step counter increments, and the
target network is hard-copied from the just-fitted online network exactly when
the counter hits a multiple of `update_freq`; on every other path — a
non-syncing `replay`, a skipped `replay`, `memorize`, `act` — the target
network's parameters are unchanged. -/
theorem target_network_hard_sync {W : Type} (ops : NetOps W) (batch : List Transition)
    (batchSize : ℕ) (a : AgentState W) :
    (¬ a.memory.length < batchSize →
      ((replay ops batch batchSize a).stepCounter = a.stepCounter + 1) ∧
      ((replay ops batch batchSize a).stepCounter % updateFreq = 0 →
        (replay ops batch batchSize a).targetModel = (replay ops batch batchSize a).model) ∧
      ((replay ops batch batchSize a).stepCounter % updateFreq ≠ 0 →
        (replay ops batch batchSize a).targetModel = a.targetModel)) ∧
    (a.memory.length < batchSize → replay ops batch batchSize a = a) ∧
    (∀ t : Transition, (memorize a t).targetModel = a.targetModel) ∧
    (∀ (r : ℚ) (randomAction state : List ℚ),
      (act ops a r randomAction state).2 = a) := by
  refine ⟨?_, replay_skip ops batch batchSize a, fun _ => rfl, ?_⟩
  · intro hm
    refine ⟨replay_stepCounter_eq ops batch batchSize a hm, ?_, ?_⟩
    · intro hsync
      rw [replay_stepCounter_eq ops batch batchSize a hm] at hsync
      unfold replay
      rw [if_neg hm]
      simp only
      rw [if_pos hsync]
    · intro hsync
      rw [replay_stepCounter_eq ops batch batchSize a hm] at hsync
      unfold replay
      rw [if_neg hm]
      simp only
      rw [if_neg hsync]
  · intro r randomAction state
    unfold act
    split <;> rfl

/-- C5 witness: at a concrete agent nine updates in, the tenth update syncs the
target network to the online network. -/
theorem target_network_hard_sync_witness :
    ¬ syncAgent.memory.length < 32 ∧
    (replay recOps [wTrans] 32 syncAgent).stepCounter % updateFreq = 0 ∧
    (replay recOps [wTrans] 32 syncAgent).targetModel
      = (replay recOps [wTrans] 32 syncAgent).model := by
  have hm : ¬ syncAgent.memory.length < 32 := by
    simp [syncAgent, wAgent, initAgent]
  have hstep := ((target_network_hard_sync recOps [wTrans] 32 syncAgent).1 hm).1
  have hsync : (replay recOps [wTrans] 32 syncAgent).stepCounter % updateFreq = 0 := by
    rw [hstep]
    rfl
  exact ⟨hm, hsync, ((target_network_hard_sync recOps [wTrans] 32 syncAgent).1 hm).2.1 hsync⟩

/-- C6: feeding more than `memoryCapacity = 10000` transitions through
`memorize` starting from a fresh agent leaves exactly the most recent 10000
insertions in the replay memory, in insertion order. -/
theorem replay_buffer_fifo {W : Type} (w : W) (ts : List Transition)
    (h : memoryCapacity < ts.length) :
    (ts.foldl memorize (initAgent w)).memory.length = memoryCapacity ∧
    (ts.foldl memorize (initAgent w)).memory = ts.drop (ts.length - memoryCapacity) := by
  have hmem : (ts.foldl memorize (initAgent w)).memory
      = ts.drop (ts.length - memoryCapacity) := by
    rw [foldl_memorize_memory]
    have := foldl_dequeAppend memoryCapacity ts [] (by simp)
    simpa using this
  refine ⟨?_, hmem⟩
  rw [hmem, List.length_drop]
  omega

/-- C6 witness: 10001 insertions leave the last 10000, dropping the first. -/
theorem replay_buffer_fifo_witness :
    memoryCapacity < ((List.range 10001).map mkTrans).length ∧
    (((List.range 10001).map mkTrans).foldl memorize (initAgent ())).memory
      = ((List.range 10001).map mkTrans).drop
          (((List.range 10001).map mkTrans).length - memoryCapacity) := by
  have h : memoryCapacity < ((List.range 10001).map mkTrans).length := by
    simp [memoryCapacity]
  exact ⟨h, (replay_buffer_fifo () ((List.range 10001).map mkTrans) h).2⟩

/-- C7 counterexample: the orchestrator's per-step guard
`len(agent.memory) > batch_size` does NOT fire when the buffer holds exactly
`batch_size` entries, refuting "an update occurs when the buffer size equals
batchSize exactly". -/
theorem train_trigger_not_at_batchSize :
    batch_size ≤ batch_size ∧ trainTriggersUpdate batch_size = false := by
  constructor
  · exact le_rfl
  · rfl

/-- C7 amended: the orchestrator triggers an Agent update if and only if the
replay buffer holds strictly more than `batch_size` entries, and in that case
`replay` performs a real training update (its step counter increments rather
than early-returning). -/
theorem train_trigger_iff_strictly_more {W : Type} (ops : NetOps W)
    (batch : List Transition) (a : AgentState W) :
    (trainTriggersUpdate a.memory.length = true ↔ batch_size < a.memory.length) ∧
    (trainTriggersUpdate a.memory.length = true →
      (replay ops batch batch_size a).stepCounter = a.stepCounter + 1) := by
  constructor
  · simp [trainTriggersUpdate]
  · intro h
    have hlt : batch_size < a.memory.length := by
      simpa [trainTriggersUpdate] using h
    exact replay_stepCounter_eq ops batch batch_size a (by omega)

/-- C7 amended witness: at 33 = batch_size + 1 stored transitions the guard
fires and `replay` trains. -/
theorem train_trigger_iff_strictly_more_witness :
    trainTriggersUpdate agent33.memory.length = true ∧
    (replay unitOps [] batch_size agent33).stepCounter = agent33.stepCounter + 1 := by
  have h : trainTriggersUpdate agent33.memory.length = true := by
    simp [agent33, initAgent, trainTriggersUpdate, batch_size]
  exact ⟨h, (train_trigger_iff_strictly_more unitOps [] agent33).2 h⟩

/-- C9: with `max_reconnect_attempts = 5`, three failed connection attempts
followed by a success make `reconnect` return `False, False, False, True` and
leave the attempt counter reset to 0 (and the session connected); and whenever
the attempt counter has already reached the maximum, `reconnect` returns
`False` without raising and changes nothing. -/
theorem reconnect_retry_behavior :
    (∀ c : Bool,
      reconnectRun [false, false, false, true] ⟨c, 0⟩
        = ([false, false, false, true], ⟨true, 0⟩)) ∧
    (∀ (succeeds : Bool) (s : ConnState),
      maxReconnectAttempts ≤ s.reconnectAttempts →
        reconnect succeeds s = (false, s)) := by
  constructor
  · intro c
    cases c <;> rfl
  · intro succeeds s h
    unfold reconnect
    rw [if_pos h]

/-- C9 witness: a `reconnect` call with the counter already at the maximum
returns false and is a no-op. -/
theorem reconnect_retry_behavior_witness :
    maxReconnectAttempts ≤ (5 : ℕ) ∧
    reconnect true ⟨false, 5⟩ = (false, ⟨false, 5⟩) :=
  ⟨le_rfl, reconnect_retry_behavior.2 true ⟨false, 5⟩ le_rfl⟩

/-- C2 counterexample: `extract_state_features` does not clamp the position
components — a position of magnitude `10 ^ 6` produces feature component 0
equal to 20000, far outside the normalized range [−1, 1]. -/
theorem features_not_clamped :
    (extract_state_features (some cexTelemetry)).getD 0 0 = 20000 ∧
    (1 : ℝ) < (extract_state_features (some cexTelemetry)).getD 0 0 := by
  have h : (extract_state_features (some cexTelemetry)).getD 0 0 = 20000 := by
    simp only [extract_state_features, cexTelemetry, Option.getD_some, List.getD]
    norm_num
  exact ⟨h, by rw [h]; norm_num⟩

/-- C2 amended: only the rotation components (indices 3–5), the distance
features (indices 12–13) and the near-ground indicator (index 14) of
`extract_state_features` are guaranteed to lie in their normalized ranges for
every input; the position, velocity and target-direction components are
divided by their constants but not clamped. -/
theorem features_partially_clamped (sd : Option RawTelemetry) :
    |(extract_state_features sd).getD 3 0| ≤ 1 ∧
    |(extract_state_features sd).getD 4 0| ≤ 1 ∧
    |(extract_state_features sd).getD 5 0| ≤ 1 ∧
    0 ≤ (extract_state_features sd).getD 12 0 ∧
    (extract_state_features sd).getD 12 0 ≤ 1 ∧
    0 ≤ (extract_state_features sd).getD 13 0 ∧
    (extract_state_features sd).getD 13 0 ≤ 1 / 2 ∧
    ((extract_state_features sd).getD 14 0 = 0 ∨
      (extract_state_features sd).getD 14 0 = 1) := by
  have habs : ∀ v : ℝ, |max (-1) (min 1 v)| ≤ 1 := by
    intro v
    rw [abs_le]
    exact ⟨le_max_left _ _, max_le (by norm_num) (min_le_left _ _)⟩
  match sd with
  | none =>
    refine ⟨?_, ?_, ?_, ?_, ?_, ?_, ?_, ?_⟩ <;>
      simp [extract_state_features, List.getD]
  | some st =>
    simp only [extract_state_features, List.getD, List.get?, Option.getD_some]
    set d := Real.sqrt
      (((st.position.getD Vec3.zero).x - targetPosition.x) *
          ((st.position.getD Vec3.zero).x - targetPosition.x) +
        ((st.position.getD Vec3.zero).y - targetPosition.y) *
          ((st.position.getD Vec3.zero).y - targetPosition.y) +
        ((st.position.getD Vec3.zero).z - targetPosition.z) *
          ((st.position.getD Vec3.zero).z - targetPosition.z)) with hd
    have hd0 : 0 ≤ d := hd ▸ Real.sqrt_nonneg _
    have hn0 : 0 ≤ min 1 (d / 100) :=
      le_min (by norm_num) (div_nonneg hd0 (by norm_num))
    have hn1 : min 1 (d / 100) ≤ 1 := min_le_left _ _
    refine ⟨habs _, habs _, habs _, hn0, hn1, ?_, ?_, ?_⟩
    · nlinarith
    · nlinarith
    · by_cases hy : (st.position.getD Vec3.zero).y < minAltitude
      · right; rw [if_pos hy]
      · left; rw [if_neg hy]

/-- C8: for every telemetry input with state present, `calculate_reward`
returns the clamp to [−1000, 1000] of the sum of the −0.1 time penalty, the
`5/(distance+1)` term, the `10 × (prevDistance − distance)` progress term and
the ±200 landing term, and updates the remembered distance to the current
distance; with no remembered distance the progress term is zero (the
remembered distance is freshly seeded). -/
theorem reward_decomposition (st : RawTelemetry) (prevDist : Option ℝ) :
    calculate_reward (some st) prevDist
      = (clampReward (timePenaltySpec + distanceRewardSpec st
            + progressRewardSpec st prevDist + landingRewardSpec st),
         some (distToTarget st)) ∧
    progressRewardSpec st none = 0 := by
  refine ⟨?_, rfl⟩
  cases prevDist with
  | none =>
    simp only [calculate_reward, clampReward, timePenaltySpec, distanceRewardSpec,
      progressRewardSpec, landingRewardSpec, distToTarget, horizDistToTarget,
      Prod.mk.injEq]
  | some p =>
    simp only [calculate_reward, clampReward, timePenaltySpec, distanceRewardSpec,
      progressRewardSpec, landingRewardSpec, distToTarget, horizDistToTarget,
      Prod.mk.injEq]
    refine ⟨?_, trivial⟩
    ring_nf

/-- C3: in a running episode past the grace period, with telemetry present and
tilt within bounds, an altitude below the minimum is terminal: reason "landed
outside" when the horizontal distance to the target is ≥ targetRadius and
"landed on target" when it is < targetRadius — with no constraint relating the
step count to the step limit, exhibiting that landing is classified before the
step-limit check.  Additionally, per the check order, missing telemetry
dominates everything and extreme tilt dominates landing. -/
theorem landing_terminal_classification (ctx : EpisodeCtx) (st : RawTelemetry)
    (hrun : ctx.trainingState = TrainingState.episodeRunning)
    (hsteps : graceSteps < ctx.episodeSteps)
    (hpitch : |telemetryPitch st| ≤ maxTilt)
    (hroll : |telemetryRoll st| ≤ maxTilt)
    (hlanded : telemetryY st < minAltitude) :
    (targetRadius ≤ horizDistToTarget st →
      is_episode_done ctx (some st) = (true, some DoneReason.landedOutsideTarget)) ∧
    (horizDistToTarget st < targetRadius →
      is_episode_done ctx (some st) = (true, some DoneReason.landedOnTarget)) ∧
    (∀ ctx2 : EpisodeCtx, ctx2.trainingState = TrainingState.episodeRunning →
      is_episode_done ctx2 none = (true, some DoneReason.noStateData)) ∧
    (∀ st2 : RawTelemetry, maxTilt < |telemetryPitch st2| →
      is_episode_done ctx (some st2) = (true, some DoneReason.extremeTilt)) := by
  have hsq : ∀ t : RawTelemetry,
      Real.sqrt (((t.position.getD Vec3.zero).x - targetPosition.x) ^ 2 +
          ((t.position.getD Vec3.zero).z - targetPosition.z) ^ 2)
        = horizDistToTarget t := by
    intro t
    unfold horizDistToTarget
    congr 1
    ring
  unfold telemetryPitch at hpitch
  unfold telemetryRoll at hroll
  unfold telemetryY at hlanded
  refine ⟨?_, ?_, ?_, ?_⟩
  · intro hfar
    unfold is_episode_done
    rw [if_neg (by simp [hrun])]
    simp only
    rw [if_neg (by omega)]
    rw [if_neg (by
      push_neg
      exact ⟨hpitch, hroll⟩)]
    rw [if_pos ⟨hlanded, hsteps⟩]
    rw [if_neg (by rw [hsq st]; exact not_lt.mpr hfar)]
  · intro hnear
    unfold is_episode_done
    rw [if_neg (by simp [hrun])]
    simp only
    rw [if_neg (by omega)]
    rw [if_neg (by
      push_neg
      exact ⟨hpitch, hroll⟩)]
    rw [if_pos ⟨hlanded, hsteps⟩]
    rw [if_pos (by rw [hsq st]; exact hnear)]
  · intro ctx2 hrun2
    unfold is_episode_done
    rw [if_neg (by simp [hrun2])]
  · intro st2 htilt
    unfold telemetryPitch at htilt
    unfold is_episode_done
    rw [if_neg (by simp [hrun])]
    simp only
    rw [if_neg (by omega)]
    rw [if_pos (Or.inl htilt)]

/-- C3 witness: a level drone at altitude 0.25, one meter from the target
center, past the grace period, is reported as landed on target. -/
theorem landing_terminal_classification_witness :
    is_episode_done runningCtx (some landedOnTargetTelemetry)
      = (true, some DoneReason.landedOnTarget) := by
  have hdist : horizDistToTarget landedOnTargetTelemetry = 1 := by
    unfold horizDistToTarget landedOnTargetTelemetry targetPosition
    simp only [Option.getD_some]
    norm_num
  refine (landing_terminal_classification runningCtx landedOnTargetTelemetry
    rfl (by norm_num [runningCtx, graceSteps])
    (by norm_num [telemetryPitch, landedOnTargetTelemetry, maxTilt, Vec3.zero])
    (by norm_num [telemetryRoll, landedOnTargetTelemetry, maxTilt, Vec3.zero])
    (by norm_num [telemetryY, landedOnTargetTelemetry, minAltitude])).2.1 ?_
  rw [hdist]
  norm_num [targetRadius]

/-- C10: during the grace period (step count below 20) of a running episode,
`is_episode_done` returns non-terminal for every present telemetry — tilt,
landing and step-limit checks are all suppressed — while absent telemetry
still terminates the episode. -/
theorem grace_period_suppression (ctx : EpisodeCtx) (st : RawTelemetry)
    (hrun : ctx.trainingState = TrainingState.episodeRunning)
    (hgrace : ctx.episodeSteps < graceSteps) :
    is_episode_done ctx (some st) = (false, none) ∧
    is_episode_done ctx none = (true, some DoneReason.noStateData) := by
  constructor
  · unfold is_episode_done
    rw [if_neg (by simp [hrun])]
    simp only
    rw [if_pos hgrace]
  · unfold is_episode_done
    rw [if_neg (by simp [hrun])]

/-- C10 witness: at step 5 even telemetry with 90° tilt at ground level does
not terminate the episode, while missing telemetry does. -/
theorem grace_period_suppression_witness :
    is_episode_done graceCtx (some tiltedTelemetry) = (false, none) ∧
    is_episode_done graceCtx none = (true, some DoneReason.noStateData) :=
  grace_period_suppression graceCtx tiltedTelemetry rfl
    (by norm_num [graceCtx, graceSteps])

end DroneRL
